import Mathlib

/-!
Verification of the queueing / traffic-shaping simulations in
t-lin/ece361-demos (directory src/queueing).

Each Python script is embedded shallowly: the sequential loops that update
scalar state become structural recursions over the packet index, floating
point numbers are modelled by the rationals, and the state mutated by a loop
becomes an explicit structure threaded through the recursion.  The embedded
definitions keep the variable names of the source
(waitTimes, arrEmpEnv, departEmpEnv, numTokens, dropCount, interDepartures,
theorWaitTimes, pktInSys).
-/

/--
Cumulative sum of the interarrival times
(arrEmpEnv = np.cumsum(interArrivals), identical in all five scripts):
arrEmpEnv[i] is the absolute arrival time of packet i.
-/
def arrEmpEnv (interArrivals : ℕ → ℚ) : ℕ → ℚ
  | 0 => interArrivals 0
  | i + 1 => arrEmpEnv interArrivals i + interArrivals (i + 1)

namespace Lindley

/--
Embedding of the waiting-time loop shared by Wait-Times-MD1/main.py
(lines 53-55), Wait-Times-MM1/main.py (lines 53-55) and
Wait-Times-Packet-Multiplexer/main.py (lines 83-85):
waitTimes[0] = 0 and, for i >= 1,
waitTimes[i] = max(0, waitTimes[i-1] + serviceTime[i-1] - interArrivals[i]).
The per-packet service-time function covers all three scripts at once:
a constant function is the M/D/1 script, an arbitrary function is the M/M/1
script, and serviceTimes[packetSizeIndex[i]] is the multiplexer script.
-/
def waitTimes (serviceTime interArrivals : ℕ → ℚ) : ℕ → ℚ
  | 0 => 0
  | i + 1 =>
      max 0 (waitTimes serviceTime interArrivals i + serviceTime i - interArrivals (i + 1))

/--
Embedding of the departure envelope computed by the three Lindley scripts
(Wait-Times-MD1/main.py line 94, Wait-Times-MM1/main.py line 91,
Wait-Times-Packet-Multiplexer/main.py line 112):
departEmpEnv[i] = arrEmpEnv[i] + waitTimes[i].
Note the source adds only the waiting time, not the service time.
-/
def departEmpEnv (serviceTime interArrivals : ℕ → ℚ) (i : ℕ) : ℚ :=
  arrEmpEnv interArrivals i + waitTimes serviceTime interArrivals i

end Lindley

/--
C1: for every interarrival sequence and every per-packet service-time
assignment (constant, per-packet random draw, or two-class lookup are all
instances of an arbitrary function from packet index to service time), the
FIFO wait-time sequence satisfies wait 0 = 0 and
wait (i+1) = max 0 (wait i + serviceTime i - interarrival (i+1)), and every
wait time is non-negative.
-/
theorem lindley_wait_recursion_and_nonneg (serviceTime interArrivals : ℕ → ℚ) :
    Lindley.waitTimes serviceTime interArrivals 0 = 0 ∧
    (∀ i : ℕ, Lindley.waitTimes serviceTime interArrivals (i + 1) =
      max 0 (Lindley.waitTimes serviceTime interArrivals i + serviceTime i
        - interArrivals (i + 1))) ∧
    (∀ i : ℕ, 0 ≤ Lindley.waitTimes serviceTime interArrivals i) := by
  refine ⟨rfl, fun i => rfl, fun i => ?_⟩
  cases i with
  | zero => exact le_refl 0
  | succ n => exact le_max_left 0 _

/--
C9: with constant interarrival time equal to the constant service time
(the deterministic boundary case, arrival rate = service rate), every
wait time produced by the Lindley recursion is 0.
-/
theorem lindley_deterministic_boundary_zero_wait (c : ℚ) (hc : 0 < c) :
    ∀ i : ℕ, Lindley.waitTimes (fun _ => c) (fun _ => c) i = 0 := by
  intro i
  induction i with
  | zero => rfl
  | succ n ih =>
      simp [Lindley.waitTimes, ih]

/-- Witness for C9 at c = 1, packet 3. -/
theorem lindley_deterministic_boundary_zero_wait_witness :
    (0 : ℚ) < 1 ∧ Lindley.waitTimes (fun _ => (1 : ℚ)) (fun _ => 1) 3 = 0 :=
  ⟨by norm_num, lindley_deterministic_boundary_zero_wait 1 (by norm_num) 3⟩

namespace TokenBucketQueue

/--
Per-packet state of Token-Bucket-Infinite-Queue/main.py: the scalar
numTokens and the departure time of the packet just processed
(departEmpEnv[i], the lastDepartureTime of the next step).
-/
structure State where
  numTokens : ℚ
  depart : ℚ

/--
Embedding of the shaper loop of Token-Bucket-Infinite-Queue/main.py,
lines 49-70.  run tokenRate bucketSize interArrivals i is the state after
processing packet i.  Initialization (lines 51-52): the first packet departs
at its arrival time and numTokens = bucketSize - 1.  Step (lines 55-70):
dt = currTime - departEmpEnv[i-1];
numTokens = min(numTokens + tokenRate*dt, bucketSize);
if numTokens >= 1 the packet departs at currTime and one token is spent,
otherwise it departs at currTime + (1 - numTokens)/tokenRate and the
tokens reset to 0.
-/
def run (tokenRate bucketSize : ℚ) (interArrivals : ℕ → ℚ) : ℕ → State
  | 0 => ⟨bucketSize - 1, arrEmpEnv interArrivals 0⟩
  | i + 1 =>
      let s := run tokenRate bucketSize interArrivals i
      let currTime := arrEmpEnv interArrivals (i + 1)
      let dt := currTime - s.depart
      let n := min (s.numTokens + tokenRate * dt) bucketSize
      if 1 ≤ n then ⟨n - 1, currTime⟩
      else ⟨0, currTime + (1 - n) / tokenRate⟩

/-- The departure envelope of the token-bucket shaper: departEmpEnv[i]. -/
def departEmpEnv (tokenRate bucketSize : ℚ) (interArrivals : ℕ → ℚ) (i : ℕ) : ℚ :=
  (run tokenRate bucketSize interArrivals i).depart

/--
Embedding of the inter-departure times of Token-Bucket-Infinite-Queue/main.py,
lines 73-75: interDepartures[0] = 0 and
interDepartures[i] = departEmpEnv[i] - departEmpEnv[i-1] for i >= 1.
-/
def interDepartures (tokenRate bucketSize : ℚ) (interArrivals : ℕ → ℚ) : ℕ → ℚ
  | 0 => 0
  | i + 1 =>
      departEmpEnv tokenRate bucketSize interArrivals (i + 1)
        - departEmpEnv tokenRate bucketSize interArrivals i

/--
Main invariant of the shaper loop, proved by induction over the packet
index: tokens stay in [0, bucketSize], no packet departs before it arrives,
and a packet with leftover tokens departed exactly at its arrival time
(only the token-starved branch delays a departure).
-/
theorem run_invariant (tokenRate bucketSize : ℚ) (interArrivals : ℕ → ℚ)
    (hr : 0 < tokenRate) (hcap : 1 ≤ bucketSize) :
    ∀ i : ℕ,
      0 ≤ (run tokenRate bucketSize interArrivals i).numTokens ∧
      (run tokenRate bucketSize interArrivals i).numTokens ≤ bucketSize ∧
      arrEmpEnv interArrivals i ≤ (run tokenRate bucketSize interArrivals i).depart ∧
      ((run tokenRate bucketSize interArrivals i).numTokens = 0 ∨
        (run tokenRate bucketSize interArrivals i).depart = arrEmpEnv interArrivals i) := by
  intro i
  induction i with
  | zero =>
      refine ⟨show (0 : ℚ) ≤ bucketSize - 1 by linarith,
        show bucketSize - 1 ≤ bucketSize by linarith, le_refl _, Or.inr rfl⟩
  | succ k ih =>
      obtain ⟨h0, hle, harr, hdisj⟩ := ih
      set s := run tokenRate bucketSize interArrivals k with hs
      set currTime := arrEmpEnv interArrivals (k + 1) with hct
      set n := min (s.numTokens + tokenRate * (currTime - s.depart)) bucketSize with hn
      have hrun : run tokenRate bucketSize interArrivals (k + 1) =
          if 1 ≤ n then ⟨n - 1, currTime⟩
          else ⟨0, currTime + (1 - n) / tokenRate⟩ := rfl
      by_cases hb : 1 ≤ n
      · rw [hrun, if_pos hb]
        have hnle : n ≤ bucketSize := min_le_right _ _
        exact ⟨show (0 : ℚ) ≤ n - 1 by linarith,
          show n - 1 ≤ bucketSize by linarith, le_refl _, Or.inr rfl⟩
      · rw [hrun, if_neg hb]
        push_neg at hb
        have hwait : 0 ≤ (1 - n) / tokenRate :=
          div_nonneg (by linarith) (le_of_lt hr)
        exact ⟨le_refl 0, show (0 : ℚ) ≤ bucketSize by linarith,
          show currTime ≤ currTime + (1 - n) / tokenRate by linarith, Or.inl rfl⟩

end TokenBucketQueue

namespace TokenBucketQueue

/--
Each departure of the shaper is no earlier than the previous one.  The
token-starved branch pushes the departure past the arrival by
(1 - n)/tokenRate, and a packet can only arrive before the previous
departure when the previous packet was itself delayed, in which case the
previous step left the bucket empty.
-/
theorem depart_mono (tokenRate bucketSize : ℚ) (interArrivals : ℕ → ℚ)
    (hr : 0 < tokenRate) (hcap : 1 ≤ bucketSize) (ha : ∀ j, 0 ≤ interArrivals j) :
    ∀ i : ℕ, (run tokenRate bucketSize interArrivals i).depart ≤
      (run tokenRate bucketSize interArrivals (i + 1)).depart := by
  intro i
  obtain ⟨h0, hle, harr, hdisj⟩ := run_invariant tokenRate bucketSize interArrivals hr hcap i
  set s := run tokenRate bucketSize interArrivals i with hs
  set currTime := arrEmpEnv interArrivals (i + 1) with hct
  have hmono : arrEmpEnv interArrivals i ≤ currTime := by
    rw [hct]
    show arrEmpEnv interArrivals i ≤ arrEmpEnv interArrivals i + interArrivals (i + 1)
    linarith [ha (i + 1)]
  set n := min (s.numTokens + tokenRate * (currTime - s.depart)) bucketSize with hn
  have hrun : run tokenRate bucketSize interArrivals (i + 1) =
      if 1 ≤ n then ⟨n - 1, currTime⟩
      else ⟨0, currTime + (1 - n) / tokenRate⟩ := rfl
  by_cases hb : 1 ≤ n
  · rw [hrun, if_pos hb]
    show s.depart ≤ currTime
    rcases hdisj with hz | he
    · by_contra hlt
      push_neg at hlt
      have h1 : s.numTokens + tokenRate * (currTime - s.depart) < 0 := by
        rw [hz]
        simpa using mul_neg_of_pos_of_neg hr (by linarith)
      have h2 : n ≤ s.numTokens + tokenRate * (currTime - s.depart) := min_le_left _ _
      linarith
    · rw [he]; exact hmono
  · rw [hrun, if_neg hb]
    push_neg at hb
    show s.depart ≤ currTime + (1 - n) / tokenRate
    by_cases hdle : s.depart ≤ currTime
    · have hwait : 0 ≤ (1 - n) / tokenRate := div_nonneg (by linarith) hr.le
      linarith
    · push_neg at hdle
      have hz : s.numTokens = 0 := by
        rcases hdisj with hz | he
        · exact hz
        · exfalso; rw [he] at hdle; linarith
      have hneg : s.numTokens + tokenRate * (currTime - s.depart) < 0 := by
        rw [hz]
        simpa using mul_neg_of_pos_of_neg hr (by linarith)
      have hmin : n = s.numTokens + tokenRate * (currTime - s.depart) :=
        min_eq_left (by linarith)
      rw [hmin, hz]
      have hrne : tokenRate ≠ 0 := ne_of_gt hr
      have key : (1 - (0 + tokenRate * (currTime - s.depart))) / tokenRate
          = 1 / tokenRate - (currTime - s.depart) := by
        field_simp
      have hpos : 0 < 1 / tokenRate := by positivity
      rw [key]
      linarith

end TokenBucketQueue

/--
C2: the token-bucket-with-queue shaper initializes numTokens to
bucketSize - 1 and lets the first packet depart at its arrival time; at
every later packet, arriving at time t = arrEmpEnv (i+1), it first accrues
n = min bucketSize (numTokens + tokenRate * (t - lastDeparture)); if n >= 1
the packet departs at t and the tokens drop to n - 1, and otherwise the
packet departs at t + (1 - n)/tokenRate and the tokens reset to 0.
-/
theorem token_bucket_queue_step_behaviour (tokenRate bucketSize : ℚ)
    (interArrivals : ℕ → ℚ) :
    (TokenBucketQueue.run tokenRate bucketSize interArrivals 0).numTokens = bucketSize - 1 ∧
    TokenBucketQueue.departEmpEnv tokenRate bucketSize interArrivals 0 =
      arrEmpEnv interArrivals 0 ∧
    ∀ i : ℕ,
      (1 ≤ min bucketSize
          ((TokenBucketQueue.run tokenRate bucketSize interArrivals i).numTokens
            + tokenRate * (arrEmpEnv interArrivals (i + 1)
              - TokenBucketQueue.departEmpEnv tokenRate bucketSize interArrivals i)) →
        TokenBucketQueue.departEmpEnv tokenRate bucketSize interArrivals (i + 1) =
          arrEmpEnv interArrivals (i + 1) ∧
        (TokenBucketQueue.run tokenRate bucketSize interArrivals (i + 1)).numTokens =
          min bucketSize
            ((TokenBucketQueue.run tokenRate bucketSize interArrivals i).numTokens
              + tokenRate * (arrEmpEnv interArrivals (i + 1)
                - TokenBucketQueue.departEmpEnv tokenRate bucketSize interArrivals i)) - 1) ∧
      (min bucketSize
          ((TokenBucketQueue.run tokenRate bucketSize interArrivals i).numTokens
            + tokenRate * (arrEmpEnv interArrivals (i + 1)
              - TokenBucketQueue.departEmpEnv tokenRate bucketSize interArrivals i)) < 1 →
        TokenBucketQueue.departEmpEnv tokenRate bucketSize interArrivals (i + 1) =
          arrEmpEnv interArrivals (i + 1)
            + (1 - min bucketSize
                ((TokenBucketQueue.run tokenRate bucketSize interArrivals i).numTokens
                  + tokenRate * (arrEmpEnv interArrivals (i + 1)
                    - TokenBucketQueue.departEmpEnv tokenRate bucketSize
                        interArrivals i))) / tokenRate ∧
        (TokenBucketQueue.run tokenRate bucketSize interArrivals (i + 1)).numTokens = 0) := by
  refine ⟨rfl, rfl, fun i => ?_⟩
  set x := (TokenBucketQueue.run tokenRate bucketSize interArrivals i).numTokens
    + tokenRate * (arrEmpEnv interArrivals (i + 1)
      - TokenBucketQueue.departEmpEnv tokenRate bucketSize interArrivals i) with hx
  have hcomm : min bucketSize x = min x bucketSize := min_comm _ _
  have hrun : TokenBucketQueue.run tokenRate bucketSize interArrivals (i + 1) =
      if 1 ≤ min x bucketSize then ⟨min x bucketSize - 1, arrEmpEnv interArrivals (i + 1)⟩
      else ⟨0, arrEmpEnv interArrivals (i + 1) + (1 - min x bucketSize) / tokenRate⟩ := rfl
  constructor
  · intro h1
    rw [hcomm] at h1
    simp only [TokenBucketQueue.departEmpEnv]
    rw [hrun, if_pos h1]
    exact ⟨rfl, by rw [hcomm]⟩
  · intro h2
    rw [hcomm] at h2
    simp only [TokenBucketQueue.departEmpEnv]
    rw [hrun, if_neg (not_le.mpr h2)]
    exact ⟨by rw [hcomm], rfl⟩

/--
C3: for a positive token rate, a bucket size of at least 1 and non-negative
interarrival times, after every packet the token count lies in
[0, bucketSize] and no packet departs before it arrives.
-/
theorem token_bucket_queue_credits_in_range (tokenRate bucketSize : ℚ)
    (interArrivals : ℕ → ℚ) (hr : 0 < tokenRate) (hcap : 1 ≤ bucketSize)
    (ha : ∀ j, 0 ≤ interArrivals j) :
    ∀ i : ℕ,
      0 ≤ (TokenBucketQueue.run tokenRate bucketSize interArrivals i).numTokens ∧
      (TokenBucketQueue.run tokenRate bucketSize interArrivals i).numTokens ≤ bucketSize ∧
      arrEmpEnv interArrivals i ≤
        TokenBucketQueue.departEmpEnv tokenRate bucketSize interArrivals i := by
  intro i
  obtain ⟨h0, h1, h2, -⟩ :=
    TokenBucketQueue.run_invariant tokenRate bucketSize interArrivals hr hcap i
  exact ⟨h0, h1, h2⟩

/--
Witness for C3 at tokenRate = 1, bucketSize = 2, unit interarrival times,
packet 2.
-/
theorem token_bucket_queue_credits_in_range_witness :
    ((0 : ℚ) < 1 ∧ (1 : ℚ) ≤ 2 ∧ (∀ j : ℕ, (0 : ℚ) ≤ (fun _ : ℕ => (1 : ℚ)) j)) ∧
    (0 ≤ (TokenBucketQueue.run 1 2 (fun _ => 1) 2).numTokens ∧
      (TokenBucketQueue.run 1 2 (fun _ => 1) 2).numTokens ≤ 2 ∧
      arrEmpEnv (fun _ => 1) 2 ≤ TokenBucketQueue.departEmpEnv 1 2 (fun _ => 1) 2) :=
  ⟨⟨by norm_num, by norm_num, fun j => by norm_num⟩,
    token_bucket_queue_credits_in_range 1 2 (fun _ => 1) (by norm_num) (by norm_num)
      (fun j => by norm_num) 2⟩

/--
C4: for a positive token rate, a bucket size of at least 1 and non-negative
interarrival times, the departure envelope of the shaper is non-decreasing
and every derived inter-departure time is non-negative.
-/
theorem token_bucket_queue_departures_monotone (tokenRate bucketSize : ℚ)
    (interArrivals : ℕ → ℚ) (hr : 0 < tokenRate) (hcap : 1 ≤ bucketSize)
    (ha : ∀ j, 0 ≤ interArrivals j) :
    ∀ i : ℕ,
      TokenBucketQueue.departEmpEnv tokenRate bucketSize interArrivals i ≤
        TokenBucketQueue.departEmpEnv tokenRate bucketSize interArrivals (i + 1) ∧
      0 ≤ TokenBucketQueue.interDepartures tokenRate bucketSize interArrivals i := by
  intro i
  have hmono := TokenBucketQueue.depart_mono tokenRate bucketSize interArrivals hr hcap ha
  constructor
  · exact hmono i
  · cases i with
    | zero => exact le_refl 0
    | succ k =>
        have hk := hmono k
        simp only [TokenBucketQueue.interDepartures]
        have hk' : TokenBucketQueue.departEmpEnv tokenRate bucketSize interArrivals k ≤
            TokenBucketQueue.departEmpEnv tokenRate bucketSize interArrivals (k + 1) := hk
        linarith

/--
Witness for C4 at tokenRate = 1, bucketSize = 2, unit interarrival times,
packet 2.
-/
theorem token_bucket_queue_departures_monotone_witness :
    ((0 : ℚ) < 1 ∧ (1 : ℚ) ≤ 2 ∧ (∀ j : ℕ, (0 : ℚ) ≤ (fun _ : ℕ => (1 : ℚ)) j)) ∧
    (TokenBucketQueue.departEmpEnv 1 2 (fun _ => 1) 2 ≤
      TokenBucketQueue.departEmpEnv 1 2 (fun _ => 1) 3 ∧
      0 ≤ TokenBucketQueue.interDepartures 1 2 (fun _ => 1) 2) :=
  ⟨⟨by norm_num, by norm_num, fun j => by norm_num⟩,
    token_bucket_queue_departures_monotone 1 2 (fun _ => 1) (by norm_num) (by norm_num)
      (fun j => by norm_num) 2⟩

namespace TokenBucketNoQueue

/-- State of Token-Bucket-No-Queue/main.py: numTokens and dropCount. -/
structure State where
  numTokens : ℚ
  dropCount : ℕ

/--
Embedding of one iteration of the loop of Token-Bucket-No-Queue/main.py,
lines 37-45: numTokens = min(numTokens + tokenRate * interArrivals[i],
bucketSize); if numTokens >= 1 a token is spent, otherwise the packet is
dropped and numTokens is left at its accrued value (the source has no
assignment in the else branch).
-/
def step (tokenRate bucketSize : ℚ) (s : State) (ia : ℚ) : State :=
  let n := min (s.numTokens + tokenRate * ia) bucketSize
  if 1 ≤ n then ⟨n - 1, s.dropCount⟩
  else ⟨n, s.dropCount + 1⟩

/--
Embedding of the full loop of Token-Bucket-No-Queue/main.py, lines 34-45:
run tokenRate bucketSize interArrivals n is the state after the first n
packets, from the initial state numTokens = 0, dropCount = 0.
-/
def run (tokenRate bucketSize : ℚ) (interArrivals : ℕ → ℚ) : ℕ → State
  | 0 => ⟨0, 0⟩
  | i + 1 => step tokenRate bucketSize (run tokenRate bucketSize interArrivals i)
      (interArrivals i)

end TokenBucketNoQueue

/--
C6 counterexample: in Token-Bucket-No-Queue/main.py a dropped packet does
NOT reset the credits to 0.  With tokenRate = 1, bucketSize = 2 and first
interarrival 1/2, the first packet accrues 1/2 token, is dropped, and the
state keeps numTokens = 1/2, contradicting the claim that the credits equal
0 after a drop.
-/
theorem token_bucket_noqueue_drop_keeps_credit_cex :
    (TokenBucketNoQueue.run 1 2 (fun _ => 1 / 2) 1).dropCount = 1 ∧
    (TokenBucketNoQueue.run 1 2 (fun _ => 1 / 2) 1).numTokens = 1 / 2 ∧
    ¬ (TokenBucketNoQueue.run 1 2 (fun _ => 1 / 2) 1).numTokens = 0 := by
  refine ⟨?_, ?_, ?_⟩ <;> norm_num [TokenBucketNoQueue.run, TokenBucketNoQueue.step]

/--
C6 amended: whenever a packet arrives and the accrued credits
n = min (credits + tokenRate * interarrival) bucketSize are below 1, the
drop counter is incremented and the credits after the step equal the
accrued value n itself (the partial credit below one token is retained,
not zeroed).
-/
theorem token_bucket_noqueue_drop_retains_credit (tokenRate bucketSize : ℚ)
    (s : TokenBucketNoQueue.State) (ia : ℚ)
    (h : min (s.numTokens + tokenRate * ia) bucketSize < 1) :
    (TokenBucketNoQueue.step tokenRate bucketSize s ia).dropCount = s.dropCount + 1 ∧
    (TokenBucketNoQueue.step tokenRate bucketSize s ia).numTokens =
      min (s.numTokens + tokenRate * ia) bucketSize := by
  have hrw : TokenBucketNoQueue.step tokenRate bucketSize s ia =
      ⟨min (s.numTokens + tokenRate * ia) bucketSize, s.dropCount + 1⟩ := by
    simp only [TokenBucketNoQueue.step]
    rw [if_neg (not_le.mpr h)]
  rw [hrw]
  exact ⟨rfl, rfl⟩

/--
Witness for the amended C6 at tokenRate = 1, bucketSize = 2, credits 0,
interarrival 1/2.
-/
theorem token_bucket_noqueue_drop_retains_credit_witness :
    min ((0 : ℚ) + 1 * (1 / 2)) 2 < 1 ∧
    ((TokenBucketNoQueue.step 1 2 ⟨0, 0⟩ (1 / 2)).dropCount = 0 + 1 ∧
      (TokenBucketNoQueue.step 1 2 ⟨0, 0⟩ (1 / 2)).numTokens =
        min ((0 : ℚ) + 1 * (1 / 2)) 2) :=
  ⟨by norm_num, token_bucket_noqueue_drop_retains_credit 1 2 ⟨0, 0⟩ (1 / 2) (by norm_num)⟩

/--
C10: the no-queue bucket starts empty, numTokens = 0 (unlike the
with-queue script, which starts at bucketSize - 1), and therefore, for a
bucket size of at least 1, the first packet is dropped exactly when
tokenRate * interArrivals 0 < 1.
-/
theorem token_bucket_noqueue_starts_empty (tokenRate bucketSize : ℚ)
    (interArrivals : ℕ → ℚ) (hcap : 1 ≤ bucketSize) :
    (TokenBucketNoQueue.run tokenRate bucketSize interArrivals 0).numTokens = 0 ∧
    ((TokenBucketNoQueue.run tokenRate bucketSize interArrivals 1).dropCount = 1 ↔
      tokenRate * interArrivals 0 < 1) := by
  refine ⟨rfl, ?_⟩
  have hrw : TokenBucketNoQueue.run tokenRate bucketSize interArrivals 1 =
      TokenBucketNoQueue.step tokenRate bucketSize ⟨0, 0⟩ (interArrivals 0) := rfl
  rw [hrw]
  simp only [TokenBucketNoQueue.step]
  by_cases hb : 1 ≤ min ((0 : ℚ) + tokenRate * interArrivals 0) bucketSize
  · rw [if_pos hb]
    simp only [zero_add] at hb
    have h1 : (1 : ℚ) ≤ tokenRate * interArrivals 0 := le_trans hb (min_le_left _ _)
    constructor
    · intro h0
      exact absurd h0 (by simp)
    · intro hlt
      linarith
  · rw [if_neg hb]
    push_neg at hb
    simp only [zero_add] at hb
    constructor
    · intro _
      rcases min_lt_iff.mp hb with h1 | h2
      · exact h1
      · linarith
    · intro _
      rfl

/--
Witness for C10 at tokenRate = 1, bucketSize = 1, interarrival 1/2: the
first packet accrues only half a token and is dropped.
-/
theorem token_bucket_noqueue_starts_empty_witness :
    (1 : ℚ) ≤ 1 ∧
    ((TokenBucketNoQueue.run 1 1 (fun _ => 1 / 2) 0).numTokens = 0 ∧
      ((TokenBucketNoQueue.run 1 1 (fun _ => 1 / 2) 1).dropCount = 1 ↔
        (1 : ℚ) * (fun _ : ℕ => (1 : ℚ) / 2) 0 < 1)) :=
  ⟨by norm_num, token_bucket_noqueue_starts_empty 1 1 (fun _ => 1 / 2) (by norm_num)⟩

/--
C5 is a code bug: all three Lindley scripts compute
departEmpEnv[i] = arrEmpEnv[i] + waitTimes[i], omitting the serviceTime[i]
term, although their own docstrings and plot labels describe the
departure-based wait as queueing plus service.  At constant service time 1
and constant interarrival 1, packet 0 has wait 0, so the code departs it at
its arrival time 1 while the documented formula
arrival + wait + service gives 2.
-/
theorem lindley_departure_omits_service_time :
    Lindley.departEmpEnv (fun _ => 1) (fun _ => 1) 0 = 1 ∧
    arrEmpEnv (fun _ => 1) 0 + Lindley.waitTimes (fun _ => 1) (fun _ => 1) 0
      + (fun _ : ℕ => (1 : ℚ)) 0 = 2 ∧
    Lindley.departEmpEnv (fun _ => 1) (fun _ => 1) 0 ≠
      arrEmpEnv (fun _ => 1) 0 + Lindley.waitTimes (fun _ => 1) (fun _ => 1) 0
        + (fun _ : ℕ => (1 : ℚ)) 0 := by
  refine ⟨?_, ?_, ?_⟩ <;>
    norm_num [Lindley.departEmpEnv, Lindley.waitTimes, arrEmpEnv]

namespace MM1

/--
Embedding of the theoretical waiting-time CDF of Wait-Times-MM1/main.py,
line 63: theorWaitTimes(t) = 1 - (arrRate / servRate) * exp(-(servRate -
arrRate) * t).  The source evaluates this expression directly, with no
guard on the sign of servRate - arrRate.
-/
noncomputable def theorWaitTimes (arrRate servRate t : ℝ) : ℝ :=
  1 - arrRate / servRate * Real.exp (-(servRate - arrRate) * t)

end MM1

namespace MD1

/--
Embedding of one entry of the theoretical waiting-time CDF of
Wait-Times-MD1/main.py, lines 61-66: for a time value t the inner loop sums,
for j from 0 to int(servRate * t),
(arrRate^j * (j/servRate - t)^j) / factorial(j) * exp(-arrRate * (j/servRate
- t)), and the result is then multiplied by 1 - arrRate/servRate.  On the
non-negative time axis the script uses (x_range values), python int()
truncation coincides with the floor.  The source evaluates this expression
directly, with no guard on the sign of servRate - arrRate.
-/
noncomputable def theorWaitTimes (arrRate servRate t : ℝ) : ℝ :=
  Finset.sum (Finset.range ((Int.floor (servRate * t)).toNat + 1)) (fun j =>
    arrRate ^ j * ((j : ℝ) / servRate - t) ^ j / (Nat.factorial j : ℝ) *
      Real.exp (-arrRate * ((j : ℝ) / servRate - t)))
    * (1 - arrRate / servRate)

end MD1

/--
C7 counterexample: neither theoretical evaluator rejects or flags an
unstable configuration.  At arrRate = 2 > servRate = 1 both closed forms
are silently evaluated at t = 0 and return the value -1 (not even a valid
CDF value) instead of an error.
-/
theorem theoretical_unstable_silently_evaluated_cex :
    MM1.theorWaitTimes 2 1 0 = -1 ∧ MD1.theorWaitTimes 2 1 0 = -1 := by
  constructor
  · norm_num [MM1.theorWaitTimes]
  · norm_num [MD1.theorWaitTimes, Finset.sum_range_one]

/--
C7 amended: neither theoretical evaluator checks arrRate < servRate before
computing its closed-form waiting-time CDF; both expressions are silently
evaluated at unstable configurations.  At the boundary
arrRate = servRate both return the constant 0 for every t (the M/M/1 factor
arrRate/servRate * exp 0 equals 1, and the M/D/1 scale factor
1 - arrRate/servRate vanishes), and at the strictly unstable
arrRate = 2, servRate = 1, t = 0 both return -1.
-/
theorem theoretical_no_stability_guard (servRate t : ℝ) (h : 0 < servRate) :
    MM1.theorWaitTimes servRate servRate t = 0 ∧
    MD1.theorWaitTimes servRate servRate t = 0 ∧
    MM1.theorWaitTimes 2 1 0 = -1 ∧
    MD1.theorWaitTimes 2 1 0 = -1 := by
  refine ⟨?_, ?_, ?_, ?_⟩
  · simp [MM1.theorWaitTimes, div_self (ne_of_gt h)]
  · simp [MD1.theorWaitTimes, div_self (ne_of_gt h)]
  · norm_num [MM1.theorWaitTimes]
  · norm_num [MD1.theorWaitTimes, Finset.sum_range_one]

/-- Witness for the amended C7 at servRate = 1, t = 2. -/
theorem theoretical_no_stability_guard_witness :
    (0 : ℝ) < 1 ∧
    (MM1.theorWaitTimes 1 1 2 = 0 ∧ MD1.theorWaitTimes 1 1 2 = 0 ∧
      MM1.theorWaitTimes 2 1 0 = -1 ∧ MD1.theorWaitTimes 2 1 0 = -1) :=
  ⟨by norm_num, theoretical_no_stability_guard 1 2 (by norm_num)⟩

namespace Metrics

/-- python max over a list (max of a non-empty list of envelope times). -/
def listMax (l : List ℚ) : ℚ := l.foldl max (l.headD 0)

/--
Embedding of the inner scans of the backlog loop, e.g.
Token-Bucket-Infinite-Queue/main.py lines 122-128 and
Wait-Times-MD1/main.py lines 104-110:
for idx in range(k, numPackets): if env[idx] > intervalEnd: break.
The result is the final value of the python loop variable; fuel is the
length of range(k, numPackets), so an empty range leaves the variable at
its previous value k and a scan that never breaks stops at numPackets - 1,
the last value the loop variable takes.
-/
def scanIdx (env : List ℚ) (intervalEnd : ℚ) : ℕ → ℕ → ℕ
  | 0, k => k
  | fuel + 1, k =>
      if intervalEnd < env.getD k 0 then k
      else
        match fuel with
        | 0 => k
        | f + 1 => scanIdx env intervalEnd (f + 1) (k + 1)

/--
Embedding of the backlog loop body, e.g.
Token-Bucket-Infinite-Queue/main.py lines 119-132: for interval i the
boundary is timeInterval * (i+1); both cursors advance from their previous
values; then numArrivals = arrIndex - 1 if arrIndex > 0 else 0 and likewise
for departures, and the entry is their difference.  rem counts the
remaining intervals.
-/
def pktInSysGo (arrEnv departEnv : List ℚ) (timeInterval : ℚ) (numPackets : ℕ) :
    ℕ → ℕ → ℕ → ℕ → List ℤ
  | 0, _, _, _ => []
  | rem + 1, i, arrIndex, departIndex =>
      let intervalEnd := timeInterval * ((i : ℚ) + 1)
      let arrIndex2 := scanIdx arrEnv intervalEnd (numPackets - arrIndex) arrIndex
      let departIndex2 := scanIdx departEnv intervalEnd (numPackets - departIndex) departIndex
      let numArrivals : ℤ := if 0 < arrIndex2 then (arrIndex2 : ℤ) - 1 else 0
      let numDepartures : ℤ := if 0 < departIndex2 then (departIndex2 : ℤ) - 1 else 0
      (numArrivals - numDepartures) ::
        pktInSysGo arrEnv departEnv timeInterval numPackets rem (i + 1) arrIndex2 departIndex2

/--
Embedding of the packets-in-system series, e.g.
Token-Bucket-Infinite-Queue/main.py lines 114-132 (the same loop appears in
Wait-Times-MD1/main.py lines 96-114, Wait-Times-MM1 and the multiplexer):
timeInterval = max(departEmpEnv) / numPoints, both cursors start at 0 and
the loop fills one backlog entry per interval.
-/
def pktInSys (arrEnv departEnv : List ℚ) (numPoints : ℕ) : List ℤ :=
  let timeInterval := listMax departEnv / (numPoints : ℚ)
  pktInSysGo arrEnv departEnv timeInterval arrEnv.length numPoints 0 0 0

end Metrics

/--
C8 is a code bug: the backlog loop subtracts one from each cursor, and a
cursor that scans to the end of the list without breaking stops at
numPackets - 1 rather than numPackets (a python range-loop artifact), so at
a boundary that lies at or beyond the last arrival the arrival count is
short by one and the computed backlog disagrees with
(#arrivals <= t) - (#departures <= t).  With arrival envelope [1, 2],
departure envelope [1, 10] (both non-decreasing, departures no earlier than
arrivals) and numPoints = 2, the first boundary is t = 5: the code computes
backlog 0 there, but two arrivals and one departure are <= 5, so the true
backlog is 1.
-/
theorem pktInSys_off_by_one_at_boundary :
    Metrics.pktInSys [1, 2] [1, 10] 2 = [0, 0] ∧
    Metrics.listMax [1, 10] / (2 : ℚ) * ((0 : ℚ) + 1) = 5 ∧
    (((([1, 2] : List ℚ).countP fun x => decide (x ≤ 5)) : ℤ)
      - ((([1, 10] : List ℚ).countP fun x => decide (x ≤ 5)) : ℤ) = 1) := by
  refine ⟨?_, ?_, ?_⟩
  · norm_num [Metrics.pktInSys, Metrics.pktInSysGo, Metrics.scanIdx, Metrics.listMax]
  · norm_num [Metrics.listMax]
  · norm_num [List.countP, List.countP.go]
